import Mathlib

/-!
Verification of the test-environment bootstrap orchestrator
(`test/mocks/databasemock.js`) of the nodebb-f24-bluesleep repository.

The module is shallowly embedded: configuration values are `Val`, the
key/value configuration hashes that live in the data store and in
`meta.config` are functions `String → Option Val`, the store itself is a
`Store` record, and the orchestrator's side-effecting calls are recorded
as `Event` traces.  Paths are modelled as lists of segments, so the JS
literal string (for example test/uploads) becomes the list of its
slash-separated segments.
-/

namespace NodebbTestBootstrap

/-- A scalar configuration value (JSON numbers and strings). -/
inductive Val where
  | num (n : Int)
  | str (s : String)
deriving DecidableEq, Repr

/-- A configuration hash: JS object keyed by strings, absent keys are
`none` (JS undefined). -/
abbrev Cfg : Type := String → Option Val

/-- JS property assignment `obj[k] = v` on a configuration hash. -/
def updFn (m : Cfg) (k : String) (v : Val) : Cfg :=
  fun k' => if k' = k then some v else m k'

/-- The hash that holds no keys at all. -/
def emptyCfg : Cfg := fun _ => none

/-- A JSON object read from disk, kept as an association list because the
code iterates over its entries (`install/data/defaults.json`). -/
abbrev Entries : Type := List (String × Val)

/-- JS property assignment on an association-list object: every entry for
the key gets the new value; if the key is absent the entry is appended. -/
def setEntry (ds : Entries) (k : String) (v : Val) : Entries :=
  if ds.any (fun p => p.1 == k) then
    ds.map (fun p => if p.1 == k then (k, v) else p)
  else
    ds ++ [(k, v)]

/-- Modelled from the spec: `meta.configs.setOnEmpty` (the meta module is
not part of the provided sources).  Per section 4.4 step 1 of the spec it
applies each default only to keys currently absent - set-if-empty
semantics, never overwriting an explicitly configured value. -/
def setOnEmpty (c : Cfg) : Entries → Cfg
  | [] => c
  | (k, v) :: rest => setOnEmpty (if (c k).isSome then c else updFn c k v) rest

/-- Append an element to a list unless it is already a member. -/
def insertIfAbsent (l : List String) (x : String) : List String :=
  if x ∈ l then l else l ++ [x]

/-- Add every element of `xs` to `l`, collapsing duplicates. -/
def addAll (l xs : List String) : List String :=
  xs.foldl insertIfAbsent l

/-- A subject-group-indexed family of granted privilege identifiers. -/
abbrev PrivMap : Type := String → List String

/-- Point update of a privilege family. -/
def updPriv (p : PrivMap) (g : String) (l : List String) : PrivMap :=
  fun g' => if g' = g then l else p g'

/-- The persisted data-store state the orchestrator touches: the config
hash, the per-group global privilege sets, and the `plugins:active`
sorted-set members. -/
@[ext]
structure Store where
  config : Cfg
  privileges : PrivMap
  pluginsActive : List String

/-- Modelled from the spec: `db.emptydb` (the database module is not part
of the provided sources) irreversibly erases all persisted records. -/
def emptyStore : Store :=
  { config := emptyCfg, privileges := fun _ => [], pluginsActive := [] }

/-- The in-process state the orchestrator touches: the store, the
in-memory `meta.config` hash, and the four resettable caches. -/
@[ext]
structure SysState where
  store : Store
  metaConfig : Cfg
  groupsCache : List String
  postsCache : List String
  localCache : List String
  uploadsCache : List String

/-- The two property assignments `setupDefaultConfigs` performs on the
loaded `defaults.json` object before applying it: force
`eventLoopCheckEnabled` and `minimumPasswordStrength` to `0`. -/
def defaultsOf (defaultsJson : Entries) : Entries :=
  setEntry (setEntry defaultsJson "eventLoopCheckEnabled" (.num 0))
    "minimumPasswordStrength" (.num 0)

/-- `setupDefaultConfigs(meta)`: loads `defaults.json`, forces the two
entries above to `0`, and applies the result to the store config with
set-if-empty semantics. -/
def setupDefaultConfigs (defaultsJson : Entries) (s : SysState) : SysState :=
  let c := setOnEmpty s.store.config (defaultsOf defaultsJson)
  { s with store := { s.store with config := c } }

/-- Modelled from the spec: `meta.configs.init` (the meta module is not
part of the provided sources) loads the persisted config hash into the
in-memory `meta.config`. -/
def configsInit (s : SysState) : SysState :=
  { s with metaConfig := s.store.config }

/-- The four unconditional `meta.config` assignments that follow
`meta.configs.init()` in `setupMockDefaults`. -/
def forceOverrides (s : SysState) : SysState :=
  let m := updFn (updFn (updFn (updFn s.metaConfig "postDelay" (.num 0))
    "initialPostDelay" (.num 0)) "newbiePostDelay" (.num 0)) "autoDetectLang" (.num 0)
  { s with metaConfig := m }

/-- The four cache resets in `setupMockDefaults` (groups cache, posts
cache, generic cache, uploads middleware cache). -/
def resetCaches (s : SysState) : SysState :=
  { s with groupsCache := [], postsCache := [], localCache := [], uploadsCache := [] }

/-- The privileges granted to registered-users in
`giveDefaultGlobalPrivileges`. -/
def registeredUsersPrivs : List String :=
  ["groups:chat", "groups:upload:post:image", "groups:signature", "groups:search:content",
   "groups:search:users", "groups:search:tags", "groups:local:login", "groups:view:users",
   "groups:view:tags", "groups:view:groups"]

/-- The privileges granted to guests in `giveDefaultGlobalPrivileges`. -/
def guestsPrivs : List String :=
  ["groups:view:users", "groups:view:tags", "groups:view:groups"]

/-- Modelled from the spec: `privileges.global.give` (the privileges
module is not part of the provided sources) additively grants the named
capabilities to the named subject group; additive only, no revocation. -/
def globalGive (privs : List String) (group : String) (s : SysState) : SysState :=
  let p := updPriv s.store.privileges group (addAll (s.store.privileges group) privs)
  { s with store := { s.store with privileges := p } }

/-- `giveDefaultGlobalPrivileges`: grants the registered-users set, then
the guests set. -/
def giveDefaultGlobalPrivileges (s : SysState) : SysState :=
  globalGive guestsPrivs "guests" (globalGive registeredUsersPrivs "registered-users" s)

/-- The three always-activated plugin identifiers of
`enableDefaultPlugins`. -/
def baselinePlugins : List String :=
  ["nodebb-plugin-dbsearch", "nodebb-widget-essentials", "nodebb-plugin-composer-default"]

/-- `enableDefaultPlugins`: the baseline plugin list concatenated with the
configured `test_plugins` list is added to the `plugins:active` sorted
set; `db.sortedSetAdd` is modelled from the spec (duplicates collapse). -/
def enableDefaultPlugins (testPlugins : List String) (s : SysState) : SysState :=
  let a := addAll s.store.pluginsActive (baselinePlugins ++ testPlugins)
  { s with store := { s.store with pluginsActive := a } }

/-- Modelled from the spec: `meta.themes.set` (the meta module is not part
of the provided sources) applies the baseline theme selection by writing
the theme type and id into the persisted config. -/
def themesSet (s : SysState) : SysState :=
  let c := updFn (updFn s.store.config "theme:type" (.str "local"))
    "theme:id" (.str "nodebb-theme-persona")
  { s with store := { s.store with config := c } }

/-- The seeding portion of `setupMockDefaults`, i.e. everything between
the store wipe and the upload-directory staging, in source order:
default configs, config load, forced overrides, cache resets, privilege
grants, plugin activation, theme. -/
def seedSteps (defaultsJson : Entries) (testPlugins : List String) (s : SysState) : SysState :=
  themesSet (enableDefaultPlugins testPlugins
    (giveDefaultGlobalPrivileges (resetCaches (forceOverrides (configsInit
      (setupDefaultConfigs defaultsJson s))))))

/-- The state effect of one `setupMockDefaults` invocation: `db.emptydb`
wipes the store, then the seeding steps run (the filesystem staging that
follows is modelled separately on the filesystem state). -/
def setupMockDefaultsState (defaultsJson : Entries) (testPlugins : List String)
    (s : SysState) : SysState :=
  seedSteps defaultsJson testPlugins { s with store := emptyStore }

/-! ## Filesystem model for the staging step -/

/-- Kind of a filesystem entry. -/
inductive FKind where
  | file
  | dir
deriving DecidableEq, Repr

/-- A filesystem entry: a path (list of segments) and its kind. -/
structure FSEntry where
  path : List String
  kind : FKind
deriving DecidableEq, Repr

/-- The filesystem: the list of existing entries. -/
abbrev FS : Type := List FSEntry

/-- The root staging directory literal test/uploads, as segments. -/
def uploadsRoot : List String := ["test", "uploads"]

/-- The five hard-coded relative paths of the `folders` array in
`setupMockDefaults`, as segments. -/
def stagingFolders : List (List String) :=
  [["test", "uploads"],
   ["test", "uploads", "category"],
   ["test", "uploads", "files"],
   ["test", "uploads", "system"],
   ["test", "uploads", "profile"]]

/-- `fs.promises.rm(root, \x7b recursive: true, force: true \x7d)`: removes
the root and everything below it; with `force` a missing root is success,
so on the model it is a plain filter. -/
def rmRecursiveForce (root : List String) (fs : FS) : FS :=
  fs.filter (fun e => !(root.isPrefixOf e.path))

/-- Create a single directory if not already present. -/
def addDir (fs : FS) (p : List String) : FS :=
  if (⟨p, .dir⟩ : FSEntry) ∈ fs then fs else fs ++ [⟨p, .dir⟩]

/-- All nonempty prefixes of a path, shortest first. -/
def pathPrefixes (p : List String) : List (List String) :=
  (List.range p.length).map (fun i => p.take (i + 1))

/-- `mkdirp(folder)`: creates the directory and every intermediate path
segment. -/
def mkdirp (fs : FS) (p : List String) : FS :=
  (pathPrefixes p).foldl addDir fs

/-- The filesystem staging tail of `setupMockDefaults`: remove the root
recursively (absence tolerated), then `mkdirp` each listed folder. -/
def stageUploads (fs : FS) : FS :=
  stagingFolders.foldl mkdirp (rmRecursiveForce uploadsRoot fs)

/-! ## Module load, environment guard, and event traces -/

/-- A store target as compared by the environment guard: the JS `===`
comparison reads the `database`, `host` and `port` properties, each
possibly undefined. -/
structure DbConfig where
  database : Option String
  host : Option String
  port : Option String
deriving DecidableEq, Repr

/-- The `database` section of config.json as this module reads it: a
`type` property, the directly nested connection properties the guard
compares, and nested per-engine objects (the override writes
`database.<type>`). -/
structure DatabaseSection where
  type : Option String
  database : Option String
  host : Option String
  port : Option String
  engines : List (String × DbConfig)
deriving DecidableEq, Repr

/-- Look up a nested engine object of the `database` section. -/
def getEngine (d : DatabaseSection) (k : String) : Option DbConfig :=
  (d.engines.find? (fun p => p.1 == k)).map (fun p => p.2)

/-- `nconf.set` of a nested engine object of the `database` section. -/
def setEngine (d : DatabaseSection) (k : String) (v : DbConfig) : DatabaseSection :=
  { d with engines := (k, v) :: d.engines.filter (fun p => p.1 != k) }

/-- The inputs of one bootstrap process: whether config.json is readable,
and the configuration keys this module reads.  `base_dir` is the
effective value after `nconf.defaults` (the config.json value, or the
nconf default derived from the module directory); `upload_path` is the
config.json value when present (the nconf default being the literal
test/uploads). -/
structure ConfigFile where
  readable : Bool
  url : Option String
  database : Option DatabaseSection
  test_database : Option DbConfig
  test_plugins : Option (List String)
  upload_path : Option (List String)
  base_dir : List String
deriving DecidableEq, Repr

/-- The part of the resolved nconf snapshot the claims look at. -/
structure Snapshot where
  base_dir : List String
  upload_path : List String
  database : DatabaseSection
deriving DecidableEq, Repr

/-- The distinct fatal failures of the module top level: the rethrown
config.json read error, the TypeError `url.parse` raises on an undefined
url, the explicit missing-test-database throw, the TypeError raised by
reading properties of an undefined production `database` section inside
the guard comparison, and the guard's own throw. -/
inductive BootError where
  | configMissing
  | urlTypeError
  | testDbMissing
  | prodDbTypeError
  | unsafeEnvironment
deriving DecidableEq, Repr

/-- Modelled from the spec: the spec's `ConfigInvalid` class groups the
module's fatal failures on absent required configuration keys (the
external url, the test store connection info, the production `database`
section), as opposed to `ConfigMissing` (unreadable source). -/
def isConfigInvalid : BootError → Bool
  | .urlTypeError => true
  | .testDbMissing => true
  | .prodDbTypeError => true
  | _ => false

/-- The observable calls of the orchestrator, recorded as trace events. -/
inductive Event where
  | configLoad
  | guardCheck
  | dbOverride
  | dbInit
  | createIndices
  | emptyDb
  | seedSetOnEmpty
  | configsInit
  | forceOverrides
  | cacheReset (name : String)
  | givePrivileges (group : String)
  | enablePlugins
  | themeSet
  | rmUploads
  | mkdir (p : List String)
  | initSessionStore
  | depsCheck
  | socketsInit
  | notifStartJobs
  | userStartJobs
  | webListen
  | registerAfterAll
deriving DecidableEq, Repr

/-- The environment guard condition of the module top level:
`testDbConfig.database === productionDbConfig.database && testDbConfig.host
=== productionDbConfig.host && testDbConfig.port === productionDbConfig.port`. -/
def guardTrips (t : DbConfig) (d : DatabaseSection) : Bool :=
  t.database == d.database && t.host == d.host && t.port == d.port

/-- The module top level of databasemock.js: read config.json, parse the
url and derive paths, check the test database is configured, run the
environment guard, and override `database.<type>` with the test target.
Returns the emitted events and either the fatal error or the resolved
snapshot. -/
def moduleLoad (cfg : ConfigFile) : List Event × Except BootError Snapshot :=
  if !cfg.readable then ([], .error .configMissing)
  else
    match cfg.url with
    | none => ([.configLoad], .error .urlTypeError)
    | some _ =>
      let uploadPath := cfg.base_dir ++ cfg.upload_path.getD uploadsRoot
      match cfg.test_database with
      | none => ([.configLoad], .error .testDbMissing)
      | some t =>
        match cfg.database with
        | none => ([.configLoad], .error .prodDbTypeError)
        | some d =>
          if guardTrips t d then
            ([.configLoad, .guardCheck], .error .unsafeEnvironment)
          else
            ([.configLoad, .guardCheck, .dbOverride],
             .ok { base_dir := cfg.base_dir,
                   upload_path := uploadPath,
                   database := setEngine d (d.type.getD "undefined") t })

/-- The resolved snapshot, when module load succeeds. -/
def moduleLoadSnap (cfg : ConfigFile) : Option Snapshot :=
  match (moduleLoad cfg).2 with
  | .ok s => some s
  | .error _ => none

/-- The event trace of one `setupMockDefaults` invocation, in source
order: store wipe, seeding steps, filesystem staging. -/
def smdEvents : List Event :=
  [.emptyDb, .seedSetOnEmpty, .configsInit, .forceOverrides,
   .cacheReset "groups", .cacheReset "posts", .cacheReset "local", .cacheReset "uploads",
   .givePrivileges "registered-users", .givePrivileges "guests",
   .enablePlugins, .themeSet, .rmUploads] ++ stagingFolders.map Event.mkdir

/-- The per-suite reset callback registered with `suite.afterAll` runs
exactly one `setupMockDefaults`. -/
def resetCallbackEvents : List Event := smdEvents

/-- The event trace of the mocha `before` hook, in source order.
`hasIdx` records whether the loaded database engine exposes
`createIndices` (the hook's conditional call). -/
def beforeEvents (hasIdx : Bool) : List Event :=
  [Event.dbInit] ++ (if hasIdx then [Event.createIndices] else []) ++ smdEvents ++
  [.initSessionStore, .depsCheck, .socketsInit, .notifStartJobs, .userStartJobs,
   .webListen, .registerAfterAll]

/-- The whole-process event trace: module load, then - only if the module
loaded - the `before` hook followed by `n` invocations of the per-suite
reset callback. -/
def bootstrapTrace (cfg : ConfigFile) (hasIdx : Bool) (n : Nat) : List Event :=
  match moduleLoad cfg with
  | (tr, .error _) => tr
  | (tr, .ok _) => tr ++ beforeEvents hasIdx ++ (List.replicate n resetCallbackEvents).flatten

/-- Events of the seeding portion of the reset cycle. -/
def isSeedEvent : Event → Bool
  | .seedSetOnEmpty | .configsInit | .forceOverrides | .cacheReset _
  | .givePrivileges _ | .enablePlugins | .themeSet => true
  | _ => false

/-- Events of the filesystem-staging portion of the reset cycle. -/
def isStageEvent : Event → Bool
  | .rmUploads | .mkdir _ => true
  | _ => false

/-- Events that start or restart a service or the store connection. -/
def isServiceStartEvent : Event → Bool
  | .dbInit | .createIndices | .initSessionStore | .socketsInit
  | .notifStartJobs | .userStartJobs | .webListen => true
  | _ => false

/-- The seeding phase of the reset cycle, in source order. -/
def seedPhaseEvents : List Event :=
  [.seedSetOnEmpty, .configsInit, .forceOverrides,
   .cacheReset "groups", .cacheReset "posts", .cacheReset "local", .cacheReset "uploads",
   .givePrivileges "registered-users", .givePrivileges "guests",
   .enablePlugins, .themeSet]

/-- The staging phase of the reset cycle, in source order. -/
def stagePhaseEvents : List Event :=
  [Event.rmUploads] ++ stagingFolders.map Event.mkdir

/-- The directory paths a list of events creates. -/
def mkdirPathsOf (l : List Event) : List (List String) :=
  l.filterMap (fun e => match e with | Event.mkdir p => some p | _ => none)

/-- A configuration whose test and production store targets agree on
database name, host and port. -/
def cfgEqualTargets : ConfigFile :=
  { readable := true,
    url := some "http://127.0.0.1:4567",
    database := some { type := some "mongo", database := some "nodebb",
                       host := some "127.0.0.1", port := some "27017", engines := [] },
    test_database := some { database := some "nodebb", host := some "127.0.0.1",
                            port := some "27017" },
    test_plugins := none, upload_path := none, base_dir := ["app"] }

/-- A readable configuration with no `url` key. -/
def cfgNoUrl : ConfigFile :=
  { readable := true, url := none, database := none, test_database := none,
    test_plugins := none, upload_path := none, base_dir := ["app"] }

/-- A valid configuration whose production target differs from the test
target in the database name. -/
def cfgDistinctTargets : ConfigFile :=
  { readable := true,
    url := some "http://127.0.0.1:4567",
    database := some { type := some "mongo", database := some "prod_db",
                       host := some "127.0.0.1", port := some "27017", engines := [] },
    test_database := some { database := some "test_db", host := some "127.0.0.1",
                            port := some "27017" },
    test_plugins := none, upload_path := none, base_dir := ["app"] }

/-- Like `cfgDistinctTargets` but with an explicit custom `upload_path`. -/
def cfgCustomUpload : ConfigFile :=
  { readable := true,
    url := some "http://127.0.0.1:4567",
    database := some { type := some "mongo", database := some "prod_db",
                       host := some "127.0.0.1", port := some "27017", engines := [] },
    test_database := some { database := some "test_db", host := some "127.0.0.1",
                            port := some "27017" },
    test_plugins := none, upload_path := some ["data", "uploads"], base_dir := ["app"] }

/-!
## Lemmas about module load
-/

/-- The guard condition holds exactly when the three compared fields
agree. -/
theorem guardTrips_iff (t : DbConfig) (d : DatabaseSection) :
    guardTrips t d = true ↔
      (t.database = d.database ∧ t.host = d.host ∧ t.port = d.port) := by
  simp [guardTrips, and_assoc]

/-- The module top level only ever emits resolver, guard and override
events. -/
theorem moduleLoad_trace_sub (cfg : ConfigFile) :
    ∀ e ∈ (moduleLoad cfg).1,
      e = Event.configLoad ∨ e = Event.guardCheck ∨ e = Event.dbOverride := by
  intro e he
  obtain ⟨r, u, db, tdb, tp, up, bd⟩ := cfg
  cases r
  · simp [moduleLoad] at he
  · cases u with
    | none => simp [moduleLoad] at he; simp [he]
    | some u' =>
      cases tdb with
      | none => simp [moduleLoad] at he; simp [he]
      | some t =>
        cases db with
        | none => simp [moduleLoad] at he; simp [he]
        | some d =>
          simp only [moduleLoad] at he
          by_cases hg : guardTrips t d = true <;> simp [hg] at he <;> tauto

/-- When module load succeeds its trace is exactly resolver, guard,
override. -/
theorem moduleLoad_ok_trace (cfg : ConfigFile) (s : Snapshot)
    (h : (moduleLoad cfg).2 = .ok s) :
    (moduleLoad cfg).1 = [Event.configLoad, Event.guardCheck, Event.dbOverride] := by
  obtain ⟨r, u, db, tdb, tp, up, bd⟩ := cfg
  cases r
  · simp [moduleLoad] at h
  · cases u with
    | none => simp [moduleLoad] at h
    | some u' =>
      cases tdb with
      | none => simp [moduleLoad] at h
      | some t =>
        cases db with
        | none => simp [moduleLoad] at h
        | some d =>
          simp only [moduleLoad] at h ⊢
          by_cases hg : guardTrips t d = true <;> simp [hg] at h ⊢

/-- Module load on equal store targets: the guard trips. -/
theorem moduleLoad_equal_targets (cfg : ConfigFile) (t : DbConfig) (d : DatabaseSection)
    (u : String) (h1 : cfg.readable = true) (h2 : cfg.url = some u)
    (h3 : cfg.test_database = some t) (h4 : cfg.database = some d)
    (h5 : guardTrips t d = true) :
    moduleLoad cfg = ([Event.configLoad, Event.guardCheck], .error .unsafeEnvironment) := by
  unfold moduleLoad
  rw [h1, h2, h3, h4]
  simp [h5]

/-- Module load on distinct store targets: the guard passes and the
snapshot is produced. -/
theorem moduleLoad_guard_pass (cfg : ConfigFile) (t : DbConfig) (d : DatabaseSection)
    (u : String) (h1 : cfg.readable = true) (h2 : cfg.url = some u)
    (h3 : cfg.test_database = some t) (h4 : cfg.database = some d)
    (h5 : guardTrips t d = false) :
    moduleLoad cfg = ([Event.configLoad, Event.guardCheck, Event.dbOverride],
      .ok { base_dir := cfg.base_dir,
            upload_path := cfg.base_dir ++ cfg.upload_path.getD uploadsRoot,
            database := setEngine d (d.type.getD "undefined") t }) := by
  unfold moduleLoad
  rw [h1, h2, h3, h4]
  simp [h5]

/-- On a fatal module-load error the whole-process trace is just the
module-load trace. -/
theorem bootstrapTrace_error (cfg : ConfigFile) (hasIdx : Bool) (n : Nat) (e : BootError)
    (h : (moduleLoad cfg).2 = .error e) :
    bootstrapTrace cfg hasIdx n = (moduleLoad cfg).1 := by
  unfold bootstrapTrace
  rcases hml : moduleLoad cfg with ⟨tr, res⟩
  rw [hml] at h
  cases res <;> simp_all

/-- On a successful module load the whole-process trace is the module
trace followed by the hook and the reset callbacks. -/
theorem bootstrapTrace_ok (cfg : ConfigFile) (hasIdx : Bool) (n : Nat) (s : Snapshot)
    (h : (moduleLoad cfg).2 = .ok s) :
    bootstrapTrace cfg hasIdx n =
      [Event.configLoad, Event.guardCheck, Event.dbOverride] ++ beforeEvents hasIdx
        ++ (List.replicate n resetCallbackEvents).flatten := by
  unfold bootstrapTrace
  have htr := moduleLoad_ok_trace cfg s h
  rcases hml : moduleLoad cfg with ⟨tr, res⟩
  rw [hml] at h htr
  cases res <;> simp_all

/-- In every whole-process trace, any `emptydb` call is preceded by a
guard check. -/
theorem guard_before_empty_in_trace (cfg : ConfigFile) (hasIdx : Bool) (n i : Nat)
    (h : (bootstrapTrace cfg hasIdx n)[i]? = some Event.emptyDb) :
    ∃ j, j < i ∧ (bootstrapTrace cfg hasIdx n)[j]? = some Event.guardCheck := by
  cases hres : (moduleLoad cfg).2 with
  | error e =>
    rw [bootstrapTrace_error cfg hasIdx n e hres] at h
    have hmem : Event.emptyDb ∈ (moduleLoad cfg).1 := List.getElem?_mem h
    rcases moduleLoad_trace_sub cfg _ hmem with h' | h' | h' <;> exact absurd h' (by decide)
  | ok s =>
    rw [bootstrapTrace_ok cfg hasIdx n s hres] at h ⊢
    by_cases hi : i < 3
    · exfalso
      interval_cases i <;> simp_all
    · exact ⟨1, by omega, rfl⟩

/-- A system state whose store already holds a configured
`minimumPasswordStrength` of `5`. -/
def seededStrengthFive : SysState :=
  { store := { config := fun k => if k = "minimumPasswordStrength" then some (.num 5) else none,
               privileges := fun _ => [], pluginsActive := [] },
    metaConfig := emptyCfg,
    groupsCache := [], postsCache := [], localCache := [], uploadsCache := [] }

/-!
## Lemmas about the configuration and privilege model
-/

/-- Reading an updated key yields the written value. -/
theorem updFn_apply_same (m : Cfg) (k : String) (v : Val) : updFn m k v k = some v := by
  simp [updFn]

/-- Reading any other key is unaffected by an update. -/
theorem updFn_apply_other (m : Cfg) (k : String) (v : Val) (k' : String) (h : k' ≠ k) :
    updFn m k v k' = m k' := by
  simp [updFn, h]

/-- An update never erases a present key. -/
theorem updFn_isSome (m : Cfg) (k : String) (v : Val) (k' : String) (h : (m k').isSome) :
    (updFn m k v k').isSome := by
  by_cases hk : k' = k <;> simp [updFn, hk, h]

/-- Set-if-empty never overwrites a present value. -/
theorem setOnEmpty_preserve (ds : Entries) (c : Cfg) (k : String) (v : Val)
    (h : c k = some v) : setOnEmpty c ds k = some v := by
  induction ds generalizing c with
  | nil => exact h
  | cons kv rest ih =>
    rcases kv with ⟨k₀, v₀⟩
    simp only [setOnEmpty]
    apply ih
    split
    · exact h
    next hnone =>
      by_cases hk : k = k₀
      · subst hk
        rw [h] at hnone
        simp at hnone
      · rw [updFn_apply_other _ _ _ _ hk]
        exact h

/-- Set-if-empty leaves every key of its entry list present. -/
theorem setOnEmpty_isSome_of_mem (ds : Entries) (c : Cfg) (kv : String × Val)
    (h : kv ∈ ds) : (setOnEmpty c ds kv.1).isSome := by
  induction ds generalizing c with
  | nil => cases h
  | cons kv₀ rest ih =>
    rcases kv₀ with ⟨k₀, v₀⟩
    simp only [setOnEmpty]
    rcases List.mem_cons.mp h with h' | h'
    · subst h'
      have hstep : ((if (c k₀).isSome then c else updFn c k₀ v₀) k₀).isSome := by
        split
        next hs => exact hs
        next => rw [updFn_apply_same]; rfl
      obtain ⟨w, hw⟩ := Option.isSome_iff_exists.mp hstep
      rw [setOnEmpty_preserve rest _ _ _ hw]
      rfl
    · exact ih _ h'

/-- Set-if-empty is the identity when every listed key is already
present. -/
theorem setOnEmpty_noop (ds : Entries) (c : Cfg) (h : ∀ kv ∈ ds, (c kv.1).isSome) :
    setOnEmpty c ds = c := by
  induction ds with
  | nil => rfl
  | cons kv rest ih =>
    rcases kv with ⟨k₀, v₀⟩
    simp only [setOnEmpty]
    rw [if_pos (h (k₀, v₀) (by simp))]
    exact ih (fun kv hkv => h kv (by simp [hkv]))

/-- Set-if-empty on an absent key whose entries all carry the same value
sets that value. -/
theorem setOnEmpty_absent_val (ds : Entries) (c : Cfg) (k : String) (v : Val)
    (hc : c k = none) (hmem : ∃ p ∈ ds, p.1 = k)
    (hall : ∀ p ∈ ds, p.1 = k → p.2 = v) :
    setOnEmpty c ds k = some v := by
  induction ds generalizing c with
  | nil =>
    rcases hmem with ⟨p, hp, _⟩
    cases hp
  | cons kv rest ih =>
    rcases kv with ⟨k₀, v₀⟩
    simp only [setOnEmpty]
    by_cases hk : k₀ = k
    · subst hk
      rw [if_neg (by simp [hc])]
      have hv : v₀ = v := hall (k₀, v₀) (by simp) rfl
      subst hv
      exact setOnEmpty_preserve rest _ _ _ (updFn_apply_same c k₀ v₀)
    · have hstep : (if (c k₀).isSome then c else updFn c k₀ v₀) k = none := by
        split
        · exact hc
        · rw [updFn_apply_other _ _ _ _ (fun he => hk he.symm)]
          exact hc
      refine ih _ hstep ?_ ?_
      · rcases hmem with ⟨p, hp, hpk⟩
        rcases List.mem_cons.mp hp with h' | h'
        · rw [h'] at hpk
          exact absurd hpk hk
        · exact ⟨p, h', hpk⟩
      · exact fun p hp hpk => hall p (by simp [hp]) hpk

/-- A JS object assignment leaves an entry with the assigned key. -/
theorem setEntry_mem_key (ds : Entries) (k : String) (v : Val) :
    ∃ p ∈ setEntry ds k v, p.1 = k := by
  unfold setEntry
  split
  next hany =>
    obtain ⟨p, hp, hpk⟩ := List.any_eq_true.mp hany
    exact ⟨(k, v), List.mem_map.mpr ⟨p, hp, by simp [hpk]⟩, rfl⟩
  next => exact ⟨(k, v), by simp, rfl⟩

/-- After a JS object assignment every entry with the assigned key holds
the assigned value. -/
theorem setEntry_all_val (ds : Entries) (k : String) (v : Val) :
    ∀ p ∈ setEntry ds k v, p.1 = k → p.2 = v := by
  intro p hp hpk
  unfold setEntry at hp
  split at hp
  next hany =>
    obtain ⟨p₀, hp₀, rfl⟩ := List.mem_map.mp hp
    by_cases h0 : (p₀.1 == k) = true
    · simp [h0]
    · rw [if_neg h0] at hpk ⊢
      exact absurd hpk (by simpa using h0)
  next hany =>
    rcases List.mem_append.mp hp with h' | h'
    · exact absurd (List.any_eq_true.mpr ⟨p, h', by simp [hpk]⟩) hany
    · simp at h'
      rw [h']

/-- A JS object assignment to a different key keeps some entry with the
old key. -/
theorem setEntry_other_mem (ds : Entries) (k : String) (v : Val) (k' : String)
    (h : k' ≠ k) (hmem : ∃ p ∈ ds, p.1 = k') :
    ∃ p ∈ setEntry ds k v, p.1 = k' := by
  rcases hmem with ⟨p, hp, hpk⟩
  unfold setEntry
  split
  · refine ⟨p, List.mem_map.mpr ⟨p, hp, ?_⟩, hpk⟩
    rw [if_neg (by simp [hpk, h])]
  · exact ⟨p, List.mem_append_left _ hp, hpk⟩

/-- A JS object assignment to a different key preserves the values of the
old key's entries. -/
theorem setEntry_other_all (ds : Entries) (k : String) (v : Val) (k' : String) (w : Val)
    (h : k' ≠ k) (hall : ∀ p ∈ ds, p.1 = k' → p.2 = w) :
    ∀ p ∈ setEntry ds k v, p.1 = k' → p.2 = w := by
  intro p hp hpk
  unfold setEntry at hp
  split at hp
  next =>
    obtain ⟨p₀, hp₀, rfl⟩ := List.mem_map.mp hp
    by_cases h0 : (p₀.1 == k) = true
    · rw [if_pos h0] at hpk ⊢
      exact absurd hpk (fun he => h he.symm)
    · rw [if_neg h0] at hpk ⊢
      exact hall p₀ hp₀ hpk
  next =>
    rcases List.mem_append.mp hp with h' | h'
    · exact hall p h' hpk
    · simp at h'
      rw [h'] at hpk
      exact absurd hpk (fun he => h he.symm)

/-- Inserting preserves existing members. -/
theorem mem_insertIfAbsent_of_mem (l : List String) (x y : String) (h : y ∈ l) :
    y ∈ insertIfAbsent l x := by
  unfold insertIfAbsent
  split
  · exact h
  · exact List.mem_append_left _ h

/-- The inserted element is a member. -/
theorem self_mem_insertIfAbsent (l : List String) (x : String) : x ∈ insertIfAbsent l x := by
  unfold insertIfAbsent
  split
  next h => exact h
  next => exact List.mem_append_right _ (by simp)

/-- `addAll` preserves existing members. -/
theorem mem_addAll_of_mem (xs l : List String) (y : String) (h : y ∈ l) :
    y ∈ addAll l xs := by
  induction xs generalizing l with
  | nil => exact h
  | cons x rest ih => exact ih _ (mem_insertIfAbsent_of_mem _ _ _ h)

/-- Every added element is a member after `addAll`. -/
theorem mem_addAll_arg (xs l : List String) (x : String) (h : x ∈ xs) :
    x ∈ addAll l xs := by
  induction xs generalizing l with
  | nil => cases h
  | cons y rest ih =>
    rcases List.mem_cons.mp h with h' | h'
    · subst h'
      exact mem_addAll_of_mem rest _ _ (self_mem_insertIfAbsent _ _)
    · exact ih _ h'

/-- `addAll` is the identity when every added element is already a
member. -/
theorem addAll_noop (xs l : List String) (h : ∀ x ∈ xs, x ∈ l) : addAll l xs = l := by
  induction xs with
  | nil => rfl
  | cons y rest ih =>
    unfold addAll
    rw [List.foldl_cons]
    unfold insertIfAbsent
    rw [if_pos (h y (by simp))]
    exact ih (fun x hx => h x (by simp [hx]))

/-- Reading the updated group yields the written list. -/
theorem updPriv_apply_same (p : PrivMap) (g : String) (l : List String) :
    updPriv p g l g = l := by
  simp [updPriv]

/-- Reading another group is unaffected by the update. -/
theorem updPriv_apply_other (p : PrivMap) (g : String) (l : List String) (g' : String)
    (h : g' ≠ g) : updPriv p g l g' = p g' := by
  simp [updPriv, h]

/-- Writing back a group's own list is the identity. -/
theorem updPriv_self (p : PrivMap) (g : String) : updPriv p g (p g) = p := by
  funext g'
  by_cases h : g' = g <;> simp [updPriv, h]

/-- The in-memory config after one seeding pass, spelled out. -/
theorem seedSteps_metaConfig (dj : Entries) (tp : List String) (x : SysState) :
    (seedSteps dj tp x).metaConfig =
      updFn (updFn (updFn (updFn (setOnEmpty x.store.config (defaultsOf dj))
        "postDelay" (.num 0)) "initialPostDelay" (.num 0)) "newbiePostDelay" (.num 0))
        "autoDetectLang" (.num 0) := rfl

/-- The persisted config after one seeding pass, spelled out. -/
theorem seedSteps_store_config (dj : Entries) (tp : List String) (x : SysState) :
    (seedSteps dj tp x).store.config =
      updFn (updFn (setOnEmpty x.store.config (defaultsOf dj)) "theme:type" (.str "local"))
        "theme:id" (.str "nodebb-theme-persona") := rfl

/-- The active plugin set after one seeding pass, spelled out. -/
theorem seedSteps_store_plugins (dj : Entries) (tp : List String) (x : SysState) :
    (seedSteps dj tp x).store.pluginsActive =
      addAll x.store.pluginsActive (baselinePlugins ++ tp) := rfl

/-- The privilege map after one seeding pass, spelled out. -/
theorem seedSteps_store_privs (dj : Entries) (tp : List String) (x : SysState) :
    (seedSteps dj tp x).store.privileges =
      updPriv
        (updPriv x.store.privileges "registered-users"
          (addAll (x.store.privileges "registered-users") registeredUsersPrivs))
        "guests"
        (addAll
          ((updPriv x.store.privileges "registered-users"
            (addAll (x.store.privileges "registered-users") registeredUsersPrivs)) "guests")
          guestsPrivs) := rfl

/-!
## Lemmas about the filesystem staging model
-/

/-- Adding a directory preserves existing entries. -/
theorem mem_addDir_of_mem (fs : FS) (p : List String) (e : FSEntry) (h : e ∈ fs) :
    e ∈ addDir fs p := by
  unfold addDir
  split
  · exact h
  · exact List.mem_append_left _ h

/-- The added directory is present after `addDir`. -/
theorem self_mem_addDir (fs : FS) (p : List String) :
    (⟨p, FKind.dir⟩ : FSEntry) ∈ addDir fs p := by
  unfold addDir
  split
  next h => exact h
  next h => exact List.mem_append_right _ (by simp)

/-- Membership in `addDir` comes from the old filesystem or is the added
directory. -/
theorem mem_addDir_elim (fs : FS) (p : List String) (e : FSEntry) (h : e ∈ addDir fs p) :
    e ∈ fs ∨ e = ⟨p, FKind.dir⟩ := by
  unfold addDir at h
  split at h
  · exact Or.inl h
  · rcases List.mem_append.mp h with h' | h'
    · exact Or.inl h'
    · simp at h'
      exact Or.inr h'

/-- Folding `addDir` preserves existing entries. -/
theorem mem_foldl_addDir_of_mem (qs : List (List String)) (fs : FS) (e : FSEntry)
    (h : e ∈ fs) : e ∈ qs.foldl addDir fs := by
  induction qs generalizing fs with
  | nil => exact h
  | cons q rest ih => exact ih _ (mem_addDir_of_mem _ _ _ h)

/-- Folding `addDir` creates every listed directory. -/
theorem mem_foldl_addDir_self (qs : List (List String)) (fs : FS) (q : List String)
    (h : q ∈ qs) : (⟨q, FKind.dir⟩ : FSEntry) ∈ qs.foldl addDir fs := by
  induction qs generalizing fs with
  | nil => cases h
  | cons q₀ rest ih =>
    rcases List.mem_cons.mp h with h' | h'
    · subst h'
      exact mem_foldl_addDir_of_mem rest (addDir fs q) _ (self_mem_addDir _ _)
    · exact ih _ h'

/-- Membership after folding `addDir` comes from the old filesystem or is
one of the listed directories. -/
theorem mem_foldl_addDir_elim (qs : List (List String)) (fs : FS) (e : FSEntry)
    (h : e ∈ qs.foldl addDir fs) :
    e ∈ fs ∨ ∃ q ∈ qs, e = ⟨q, FKind.dir⟩ := by
  induction qs generalizing fs with
  | nil => exact Or.inl h
  | cons q₀ rest ih =>
    rcases ih _ h with h' | ⟨q, hq, rfl⟩
    · rcases mem_addDir_elim _ _ _ h' with h'' | h''
      · exact Or.inl h''
      · exact Or.inr ⟨q₀, by simp, h''⟩
    · exact Or.inr ⟨q, by simp [hq], rfl⟩

/-- `mkdirp` preserves existing entries. -/
theorem mem_mkdirp_of_mem (fs : FS) (p : List String) (e : FSEntry) (h : e ∈ fs) :
    e ∈ mkdirp fs p :=
  mem_foldl_addDir_of_mem _ _ _ h

/-- `mkdirp` creates the full requested path. -/
theorem self_mem_mkdirp (fs : FS) (p : List String) (h : p ≠ []) :
    (⟨p, FKind.dir⟩ : FSEntry) ∈ mkdirp fs p := by
  refine mem_foldl_addDir_self _ _ _ ?_
  unfold pathPrefixes
  have hlen : 0 < p.length := List.length_pos.mpr h
  refine List.mem_map.mpr ⟨p.length - 1, ?_, ?_⟩
  · simp only [List.mem_range]
    omega
  · rw [Nat.sub_add_cancel hlen]
    exact List.take_length p

/-- Membership after `mkdirp` comes from the old filesystem or is a
prefix directory of the requested path. -/
theorem mem_mkdirp_elim (fs : FS) (p : List String) (e : FSEntry) (h : e ∈ mkdirp fs p) :
    e ∈ fs ∨ ∃ q ∈ pathPrefixes p, e = ⟨q, FKind.dir⟩ :=
  mem_foldl_addDir_elim _ _ _ h

/-- Folding `mkdirp` preserves existing entries. -/
theorem mem_foldl_mkdirp_of_mem (ps : List (List String)) (fs : FS) (e : FSEntry)
    (h : e ∈ fs) : e ∈ ps.foldl mkdirp fs := by
  induction ps generalizing fs with
  | nil => exact h
  | cons p rest ih => exact ih _ (mem_mkdirp_of_mem _ _ _ h)

/-- Folding `mkdirp` creates every listed nonempty path. -/
theorem mem_foldl_mkdirp_self (ps : List (List String)) (fs : FS) (p : List String)
    (hp : p ∈ ps) (hne : p ≠ []) :
    (⟨p, FKind.dir⟩ : FSEntry) ∈ ps.foldl mkdirp fs := by
  induction ps generalizing fs with
  | nil => cases hp
  | cons p₀ rest ih =>
    rcases List.mem_cons.mp hp with h' | h'
    · subst h'
      exact mem_foldl_mkdirp_of_mem rest (mkdirp fs p) _ (self_mem_mkdirp _ _ hne)
    · exact ih _ h'

/-- Membership after folding `mkdirp` comes from the old filesystem or is
a prefix directory of one of the listed paths. -/
theorem mem_foldl_mkdirp_elim (ps : List (List String)) (fs : FS) (e : FSEntry)
    (h : e ∈ ps.foldl mkdirp fs) :
    e ∈ fs ∨ ∃ p ∈ ps, ∃ q ∈ pathPrefixes p, e = ⟨q, FKind.dir⟩ := by
  induction ps generalizing fs with
  | nil => exact Or.inl h
  | cons p₀ rest ih =>
    rcases ih _ h with h' | ⟨p, hp, hq⟩
    · rcases mem_mkdirp_elim _ _ _ h' with h'' | ⟨q, hq, rfl⟩
      · exact Or.inl h''
      · exact Or.inr ⟨p₀, by simp, q, hq, rfl⟩
    · exact Or.inr ⟨p, by simp [hp], hq⟩

/-- Entries surviving the recursive removal are old entries outside the
removed root. -/
theorem mem_rm_elim (root : List String) (fs : FS) (e : FSEntry)
    (h : e ∈ rmRecursiveForce root fs) :
    e ∈ fs ∧ root.isPrefixOf e.path = false := by
  unfold rmRecursiveForce at h
  have := List.mem_filter.mp h
  exact ⟨this.1, by simpa using this.2⟩

/-!
## Theorems
-/

/-- Claim C1: on any configuration whose test and production store
targets agree on database name, host and port (and which gets as far as
the guard: readable config, a url, a test database section and a
production database section), module load fails with the
unsafe-environment error, no `emptydb` call ever appears in the
whole-process trace, and on every execution path of every configuration
any `emptydb` call is strictly preceded by the guard check. -/
theorem equal_targets_fail_before_empty (cfg : ConfigFile) (t : DbConfig)
    (d : DatabaseSection) (u : String)
    (h1 : cfg.readable = true) (h2 : cfg.url = some u)
    (h3 : cfg.test_database = some t) (h4 : cfg.database = some d)
    (h5 : t.database = d.database) (h6 : t.host = d.host) (h7 : t.port = d.port) :
    (moduleLoad cfg).2 = .error .unsafeEnvironment ∧
    (∀ hasIdx n, Event.emptyDb ∉ bootstrapTrace cfg hasIdx n) ∧
    (∀ (cfg₂ : ConfigFile) (hasIdx : Bool) (n i : Nat),
      (bootstrapTrace cfg₂ hasIdx n)[i]? = some Event.emptyDb →
      ∃ j, j < i ∧ (bootstrapTrace cfg₂ hasIdx n)[j]? = some Event.guardCheck) := by
  have hg : guardTrips t d = true := (guardTrips_iff t d).mpr ⟨h5, h6, h7⟩
  have hm := moduleLoad_equal_targets cfg t d u h1 h2 h3 h4 hg
  refine ⟨by rw [hm], ?_, fun cfg₂ hasIdx n i h => guard_before_empty_in_trace cfg₂ hasIdx n i h⟩
  intro hasIdx n
  rw [bootstrapTrace_error cfg hasIdx n .unsafeEnvironment (by rw [hm]), hm]
  decide

/-- Claim C1, witness at a concrete equal-target configuration. -/
theorem equal_targets_fail_before_empty_witness :
    (moduleLoad cfgEqualTargets).2 = .error .unsafeEnvironment ∧
    Event.emptyDb ∉ bootstrapTrace cfgEqualTargets true 2 := by
  have h := equal_targets_fail_before_empty cfgEqualTargets
    { database := some "nodebb", host := some "127.0.0.1", port := some "27017" }
    { type := some "mongo", database := some "nodebb", host := some "127.0.0.1",
      port := some "27017", engines := [] }
    "http://127.0.0.1:4567" rfl rfl rfl rfl rfl rfl rfl
  exact ⟨h.1, h.2.1 true 2⟩

/-- Claim C2: on any configuration that reaches the guard, module load
fails with the unsafe-environment error exactly when the test store
target and the production store target agree on all three of database
name, host and port; if they differ in at least one field, module load
succeeds. -/
theorem guard_iff_equal_targets (cfg : ConfigFile) (t : DbConfig)
    (d : DatabaseSection) (u : String)
    (h1 : cfg.readable = true) (h2 : cfg.url = some u)
    (h3 : cfg.test_database = some t) (h4 : cfg.database = some d) :
    ((moduleLoad cfg).2 = .error .unsafeEnvironment ↔
      (t.database = d.database ∧ t.host = d.host ∧ t.port = d.port)) ∧
    (¬(t.database = d.database ∧ t.host = d.host ∧ t.port = d.port) →
      ∃ s, (moduleLoad cfg).2 = .ok s) := by
  by_cases hg : guardTrips t d = true
  · have hm := moduleLoad_equal_targets cfg t d u h1 h2 h3 h4 hg
    have heq := (guardTrips_iff t d).mp hg
    exact ⟨by rw [hm]; simp [heq], fun hne => absurd heq hne⟩
  · have hg' : guardTrips t d = false := by simpa using hg
    have hm := moduleLoad_guard_pass cfg t d u h1 h2 h3 h4 hg'
    constructor
    · rw [hm]
      constructor
      · intro hc
        exact absurd hc (by simp)
      · intro hc
        exact absurd ((guardTrips_iff t d).mpr hc) (by simp [hg'])
    · exact fun _ => ⟨_, by rw [hm]⟩

/-- Claim C2, witness: the iff evaluated at a concrete equal-target
configuration and the success direction at a distinct-target one. -/
theorem guard_iff_equal_targets_witness :
    (moduleLoad cfgEqualTargets).2 = .error .unsafeEnvironment ∧
    (∃ s, (moduleLoad cfgDistinctTargets).2 = .ok s) := by
  have h1 := guard_iff_equal_targets cfgEqualTargets
    { database := some "nodebb", host := some "127.0.0.1", port := some "27017" }
    { type := some "mongo", database := some "nodebb", host := some "127.0.0.1",
      port := some "27017", engines := [] }
    "http://127.0.0.1:4567" rfl rfl rfl rfl
  have h2 := guard_iff_equal_targets cfgDistinctTargets
    { database := some "test_db", host := some "127.0.0.1", port := some "27017" }
    { type := some "mongo", database := some "prod_db", host := some "127.0.0.1",
      port := some "27017", engines := [] }
    "http://127.0.0.1:4567" rfl rfl rfl rfl
  exact ⟨h1.1.mpr (by decide), h2.2 (by decide)⟩

/-- Claim C8: module load fails with the config-missing error when
config.json cannot be read, and with a required-key failure (the spec's
`ConfigInvalid` class: missing url, missing test store connection info,
missing production database section) when a required key is absent; in
every failure case no snapshot is produced and the bootstrap does not
proceed (the whole-process trace stops at the module-load events and in
particular never reaches `db.init`). -/
theorem config_resolver_failures (cfg : ConfigFile) :
    (cfg.readable = false → moduleLoad cfg = ([], .error .configMissing)) ∧
    (cfg.readable = true → cfg.url = none →
      (moduleLoad cfg).2 = .error .urlTypeError ∧ isConfigInvalid .urlTypeError = true) ∧
    (∀ u : String, cfg.readable = true → cfg.url = some u → cfg.test_database = none →
      (moduleLoad cfg).2 = .error .testDbMissing ∧ isConfigInvalid .testDbMissing = true) ∧
    (∀ (u : String) (t : DbConfig), cfg.readable = true → cfg.url = some u →
      cfg.test_database = some t → cfg.database = none →
      (moduleLoad cfg).2 = .error .prodDbTypeError ∧ isConfigInvalid .prodDbTypeError = true) ∧
    (∀ e : BootError, (moduleLoad cfg).2 = .error e →
      moduleLoadSnap cfg = none ∧
      ∀ (hasIdx : Bool) (n : Nat),
        bootstrapTrace cfg hasIdx n = (moduleLoad cfg).1 ∧
        Event.dbInit ∉ bootstrapTrace cfg hasIdx n) := by
  refine ⟨?_, ?_, ?_, ?_, ?_⟩
  · intro h1
    unfold moduleLoad
    rw [h1]
    rfl
  · intro h1 h2
    unfold moduleLoad
    rw [h1, h2]
    exact ⟨rfl, rfl⟩
  · intro u h1 h2 h3
    unfold moduleLoad
    rw [h1, h2, h3]
    exact ⟨rfl, rfl⟩
  · intro u t h1 h2 h3 h4
    unfold moduleLoad
    rw [h1, h2, h3, h4]
    exact ⟨rfl, rfl⟩
  · intro e he
    refine ⟨by simp [moduleLoadSnap, he], ?_⟩
    intro hasIdx n
    refine ⟨bootstrapTrace_error cfg hasIdx n e he, ?_⟩
    rw [bootstrapTrace_error cfg hasIdx n e he]
    intro hmem
    rcases moduleLoad_trace_sub cfg _ hmem with h' | h' | h' <;> exact absurd h' (by decide)

/-- Claim C8, witness: an unreadable config, and a readable config with
no url, evaluated concretely. -/
theorem config_resolver_failures_witness :
    moduleLoad { cfgNoUrl with readable := false } = ([], .error .configMissing) ∧
    (moduleLoad cfgNoUrl).2 = .error .urlTypeError ∧
    moduleLoadSnap cfgNoUrl = none ∧
    Event.dbInit ∉ bootstrapTrace cfgNoUrl true 3 := by
  have ha := (config_resolver_failures { cfgNoUrl with readable := false }).1 rfl
  have hb := (config_resolver_failures cfgNoUrl).2.1 rfl rfl
  have hc := ((config_resolver_failures cfgNoUrl).2.2.2.2 .urlTypeError hb.1)
  exact ⟨ha, hb.1, hc.1, (hc.2 true 3).2⟩

/-- Claim C9, counterexample: after a successful module load the
production store target is still reachable through the configuration -
the override writes the nested engine key, while the production
connection fields directly under the `database` section (the very fields
the guard compares) keep their production values. -/
theorem production_target_still_reachable :
    (moduleLoadSnap cfgDistinctTargets).map
        (fun s => (s.database.database, s.database.host, s.database.port))
      = some (some "prod_db", some "127.0.0.1", some "27017") ∧
    some "prod_db" ≠ (none : Option String) := by
  exact ⟨rfl, by decide⟩

/-- Claim C9, amended: once the guard has passed, the module overwrites
the nested engine key `database.<type>` of the configuration with the
test store target, so the spec-modelled store reads the test target from
that key; the production connection fields stored directly under
`database` (the fields the guard compares) remain unchanged and stay
readable through the configuration. -/
theorem db_override_sets_engine_key (cfg : ConfigFile) (t : DbConfig)
    (d : DatabaseSection) (u : String)
    (h1 : cfg.readable = true) (h2 : cfg.url = some u)
    (h3 : cfg.test_database = some t) (h4 : cfg.database = some d)
    (h5 : guardTrips t d = false) :
    ∃ s, moduleLoadSnap cfg = some s ∧
      getEngine s.database (d.type.getD "undefined") = some t ∧
      s.database.database = d.database ∧
      s.database.host = d.host ∧
      s.database.port = d.port := by
  have hm := moduleLoad_guard_pass cfg t d u h1 h2 h3 h4 h5
  refine ⟨{ base_dir := cfg.base_dir,
            upload_path := cfg.base_dir ++ cfg.upload_path.getD uploadsRoot,
            database := setEngine d (d.type.getD "undefined") t },
    by simp [moduleLoadSnap, hm], ?_, rfl, rfl, rfl⟩
  simp [getEngine, setEngine]

/-- Claim C9, witness at a concrete distinct-target configuration. -/
theorem db_override_sets_engine_key_witness :
    ∃ s, moduleLoadSnap cfgDistinctTargets = some s ∧
      getEngine s.database "mongo" = some
        { database := some "test_db", host := some "127.0.0.1", port := some "27017" } ∧
      s.database.database = some "prod_db" ∧
      s.database.host = some "127.0.0.1" ∧
      s.database.port = some "27017" := by
  exact db_override_sets_engine_key cfgDistinctTargets
    { database := some "test_db", host := some "127.0.0.1", port := some "27017" }
    { type := some "mongo", database := some "prod_db", host := some "127.0.0.1",
      port := some "27017", engines := [] }
    "http://127.0.0.1:4567" rfl rfl rfl rfl rfl

/-- Claim C10: the staging step always creates exactly the five
hard-coded literal paths, while the resolver rewrites `upload_path` to
the path joined under `base_dir`; hence for a configuration with a custom
`upload_path` (one that is none of the hard-coded staging paths) the
upload directory the application resolves differs from every directory
staging creates. -/
theorem staging_ignores_upload_path (cfg : ConfigFile) (t : DbConfig)
    (d : DatabaseSection) (u : String) (up : List String)
    (h1 : cfg.readable = true) (h2 : cfg.url = some u)
    (h3 : cfg.test_database = some t) (h4 : cfg.database = some d)
    (h5 : guardTrips t d = false)
    (h6 : cfg.upload_path = some up) (h7 : up ∉ stagingFolders) :
    mkdirPathsOf resetCallbackEvents = stagingFolders ∧
    ∃ s, moduleLoadSnap cfg = some s ∧
      s.upload_path = cfg.base_dir ++ up ∧
      ∀ f ∈ stagingFolders, s.upload_path ≠ cfg.base_dir ++ f := by
  have hm := moduleLoad_guard_pass cfg t d u h1 h2 h3 h4 h5
  refine ⟨by decide,
    { base_dir := cfg.base_dir,
      upload_path := cfg.base_dir ++ cfg.upload_path.getD uploadsRoot,
      database := setEngine d (d.type.getD "undefined") t },
    by simp [moduleLoadSnap, hm], by simp [h6], ?_⟩
  intro f hf heq
  simp only [h6, Option.getD_some] at heq
  have : up = f := by
    have hd := congrArg (fun l => List.drop cfg.base_dir.length l) heq
    simpa using hd
  exact h7 (this ▸ hf)

/-- Claim C10, witness at a concrete custom-upload-path configuration. -/
theorem staging_ignores_upload_path_witness :
    mkdirPathsOf resetCallbackEvents = stagingFolders ∧
    ∃ s, moduleLoadSnap cfgCustomUpload = some s ∧
      s.upload_path = ["app"] ++ ["data", "uploads"] ∧
      ∀ f ∈ stagingFolders, s.upload_path ≠ ["app"] ++ f := by
  exact staging_ignores_upload_path cfgCustomUpload
    { database := some "test_db", host := some "127.0.0.1", port := some "27017" }
    { type := some "mongo", database := some "prod_db", host := some "127.0.0.1",
      port := some "27017", engines := [] }
    "http://127.0.0.1:4567" ["data", "uploads"] rfl rfl rfl rfl rfl rfl (by decide)

/-- Claim C5: for any starting filesystem (root directory present or
absent, stale files present or not), after `stage()` every path of the
Upload Directory Set exists as a directory, and nothing else remains
under the root: every surviving entry under test/uploads is one of the
staged directories, so each staged directory is empty apart from the
staged subdirectories the set itself mandates.  The hypothesis excludes a
regular file sitting at the parent path test, where the real `mkdirp`
would fail instead of creating directories. -/
theorem stage_recreates_upload_dirs (fs : FS)
    (h : (⟨["test"], FKind.file⟩ : FSEntry) ∉ fs) :
    (∀ p ∈ stagingFolders, (⟨p, FKind.dir⟩ : FSEntry) ∈ stageUploads fs) ∧
    (∀ e ∈ stageUploads fs, uploadsRoot.isPrefixOf e.path = true →
      e.kind = FKind.dir ∧ e.path ∈ stagingFolders) := by
  constructor
  · intro p hp
    refine mem_foldl_mkdirp_self _ _ _ hp ?_
    intro hnil
    rw [hnil] at hp
    revert hp
    decide
  · intro e he hpre
    rcases mem_foldl_mkdirp_elim _ _ _ he with hin | ⟨p, hp, q, hq, rfl⟩
    · have hrm := mem_rm_elim _ _ _ hin
      rw [hpre] at hrm
      exact absurd hrm.2 (by decide)
    · refine ⟨rfl, ?_⟩
      have key : ∀ p ∈ stagingFolders, ∀ q ∈ pathPrefixes p,
          uploadsRoot.isPrefixOf q = true → q ∈ stagingFolders := by decide
      exact key p hp q hq hpre

/-- Claim C5, witness: a filesystem with a stale file under the root and
an unrelated entry. -/
theorem stage_recreates_upload_dirs_witness :
    (∀ p ∈ stagingFolders, (⟨p, FKind.dir⟩ : FSEntry) ∈
      stageUploads [⟨["test", "uploads", "stale.txt"], FKind.file⟩,
                    ⟨["test", "uploads"], FKind.dir⟩, ⟨["other"], FKind.file⟩]) ∧
    (∀ e ∈ stageUploads [⟨["test", "uploads", "stale.txt"], FKind.file⟩,
                         ⟨["test", "uploads"], FKind.dir⟩, ⟨["other"], FKind.file⟩],
      uploadsRoot.isPrefixOf e.path = true →
      e.kind = FKind.dir ∧ e.path ∈ stagingFolders) :=
  stage_recreates_upload_dirs
    [⟨["test", "uploads", "stale.txt"], FKind.file⟩,
     ⟨["test", "uploads"], FKind.dir⟩, ⟨["other"], FKind.file⟩] (by decide)

/-- Claim C6, counterexample: the password-strength override is applied
by forcing the `defaults.json` entry to `0` and then writing with
set-if-empty semantics, so a `minimumPasswordStrength` value already
configured in the store survives the seeding steps unchanged - it is not
unconditionally overwritten. -/
theorem strength_override_is_conditional :
    (seedSteps [] [] seededStrengthFive).metaConfig "minimumPasswordStrength"
      = some (.num 5) ∧
    (Val.num 5) ≠ (Val.num 0) := by
  constructor
  · decide
  · decide

/-- Claim C6, amended: the delay and language overrides (`postDelay`,
`initialPostDelay`, `newbiePostDelay`, `autoDetectLang`) are assigned
unconditionally by every seeding pass, regardless of any previous value;
the strength and event-loop settings (`minimumPasswordStrength`,
`eventLoopCheckEnabled`) are forced to `0` only in the defaults applied
set-if-empty, which overrides any defaulted value but not a value already
present in the store - yet every reset invocation wipes the store first,
so after each full reset all six settings are `0` regardless of the prior
state. -/
theorem reset_zeroes_test_overrides (dj : Entries) (tp : List String) (s : SysState) :
    ((setupMockDefaultsState dj tp s).metaConfig "postDelay" = some (.num 0) ∧
     (setupMockDefaultsState dj tp s).metaConfig "initialPostDelay" = some (.num 0) ∧
     (setupMockDefaultsState dj tp s).metaConfig "newbiePostDelay" = some (.num 0) ∧
     (setupMockDefaultsState dj tp s).metaConfig "autoDetectLang" = some (.num 0) ∧
     (setupMockDefaultsState dj tp s).metaConfig "minimumPasswordStrength" = some (.num 0) ∧
     (setupMockDefaultsState dj tp s).metaConfig "eventLoopCheckEnabled" = some (.num 0)) ∧
    (∀ s₂ : SysState,
      (seedSteps dj tp s₂).metaConfig "postDelay" = some (.num 0) ∧
      (seedSteps dj tp s₂).metaConfig "initialPostDelay" = some (.num 0) ∧
      (seedSteps dj tp s₂).metaConfig "newbiePostDelay" = some (.num 0) ∧
      (seedSteps dj tp s₂).metaConfig "autoDetectLang" = some (.num 0)) := by
  have hforced : ∀ x : SysState,
      (seedSteps dj tp x).metaConfig "postDelay" = some (.num 0) ∧
      (seedSteps dj tp x).metaConfig "initialPostDelay" = some (.num 0) ∧
      (seedSteps dj tp x).metaConfig "newbiePostDelay" = some (.num 0) ∧
      (seedSteps dj tp x).metaConfig "autoDetectLang" = some (.num 0) := by
    intro x
    rw [seedSteps_metaConfig]
    refine ⟨?_, ?_, ?_, ?_⟩
    · rw [updFn_apply_other _ _ _ _ (by decide), updFn_apply_other _ _ _ _ (by decide),
        updFn_apply_other _ _ _ _ (by decide), updFn_apply_same]
    · rw [updFn_apply_other _ _ _ _ (by decide), updFn_apply_other _ _ _ _ (by decide),
        updFn_apply_same]
    · rw [updFn_apply_other _ _ _ _ (by decide), updFn_apply_same]
    · rw [updFn_apply_same]
  constructor
  · refine ⟨(hforced _).1, (hforced _).2.1, (hforced _).2.2.1, (hforced _).2.2.2, ?_, ?_⟩
    · unfold setupMockDefaultsState
      rw [seedSteps_metaConfig]
      rw [updFn_apply_other _ _ _ _ (by decide), updFn_apply_other _ _ _ _ (by decide),
        updFn_apply_other _ _ _ _ (by decide), updFn_apply_other _ _ _ _ (by decide)]
      exact setOnEmpty_absent_val _ _ _ _ rfl (setEntry_mem_key _ _ _) (setEntry_all_val _ _ _)
    · unfold setupMockDefaultsState
      rw [seedSteps_metaConfig]
      rw [updFn_apply_other _ _ _ _ (by decide), updFn_apply_other _ _ _ _ (by decide),
        updFn_apply_other _ _ _ _ (by decide), updFn_apply_other _ _ _ _ (by decide)]
      exact setOnEmpty_absent_val _ _ _ _ rfl
        (setEntry_other_mem _ _ _ _ (by decide) (setEntry_mem_key _ _ _))
        (setEntry_other_all _ _ _ _ _ (by decide) (setEntry_all_val _ _ _))
  · exact hforced

/-- Claim C7: invoking the seeding steps twice in a row leaves the same
persisted store state as invoking them once - in particular the seeded
configuration subset, the privilege sets of registered-users and guests,
and the active plugin set are unchanged by the second invocation. -/
theorem seed_idempotent (dj : Entries) (tp : List String) (s : SysState) :
    (seedSteps dj tp (seedSteps dj tp s)).store = (seedSteps dj tp s).store := by
  have hconfig : (seedSteps dj tp (seedSteps dj tp s)).store.config
      = (seedSteps dj tp s).store.config := by
    set x₁ := seedSteps dj tp s with hx₁
    rw [seedSteps_store_config dj tp x₁]
    have hnoop : setOnEmpty x₁.store.config (defaultsOf dj) = x₁.store.config := by
      apply setOnEmpty_noop
      intro kv hkv
      rw [hx₁, seedSteps_store_config dj tp s]
      exact updFn_isSome _ _ _ _ (updFn_isSome _ _ _ _ (setOnEmpty_isSome_of_mem _ _ _ hkv))
    rw [hnoop]
    funext k
    by_cases h1 : k = "theme:id"
    · subst h1
      rw [updFn_apply_same, hx₁, seedSteps_store_config dj tp s, updFn_apply_same]
    · rw [updFn_apply_other _ _ _ _ h1]
      by_cases h2 : k = "theme:type"
      · subst h2
        rw [updFn_apply_same, hx₁, seedSteps_store_config dj tp s,
          updFn_apply_other _ _ _ _ (by decide), updFn_apply_same]
      · rw [updFn_apply_other _ _ _ _ h2]
  have hpriv : (seedSteps dj tp (seedSteps dj tp s)).store.privileges
      = (seedSteps dj tp s).store.privileges := by
    set x₁ := seedSteps dj tp s with hx₁
    rw [seedSteps_store_privs dj tp x₁]
    have hru : x₁.store.privileges "registered-users"
        = addAll (s.store.privileges "registered-users") registeredUsersPrivs := by
      rw [hx₁, seedSteps_store_privs dj tp s,
        updPriv_apply_other _ _ _ _ (by decide), updPriv_apply_same]
    have hA : addAll (x₁.store.privileges "registered-users") registeredUsersPrivs
        = x₁.store.privileges "registered-users" := by
      apply addAll_noop
      intro x hx
      rw [hru]
      exact mem_addAll_arg _ _ _ hx
    rw [hA, updPriv_self]
    have hgu : x₁.store.privileges "guests"
        = addAll
            ((updPriv s.store.privileges "registered-users"
              (addAll (s.store.privileges "registered-users") registeredUsersPrivs)) "guests")
            guestsPrivs := by
      rw [hx₁, seedSteps_store_privs dj tp s, updPriv_apply_same]
    have hB : addAll (x₁.store.privileges "guests") guestsPrivs
        = x₁.store.privileges "guests" := by
      apply addAll_noop
      intro x hx
      rw [hgu]
      exact mem_addAll_arg _ _ _ hx
    rw [hB, updPriv_self]
  have hplug : (seedSteps dj tp (seedSteps dj tp s)).store.pluginsActive
      = (seedSteps dj tp s).store.pluginsActive := by
    set x₁ := seedSteps dj tp s with hx₁
    rw [seedSteps_store_plugins dj tp x₁]
    apply addAll_noop
    intro x hx
    rw [hx₁, seedSteps_store_plugins dj tp s]
    exact mem_addAll_arg _ _ _ hx
  exact Store.ext hconfig hpriv hplug

/-- Claim C3: every invocation of the per-suite reset callback runs
`empty()` first, then the seeding phase (default configs, config load,
forced overrides, cache resets, privilege grants, plugin activation,
theme), then the staging phase (upload-directory recreation), in exactly
that order, and its trace contains no configuration-resolver run, no
environment-guard check, and no service (re)start. -/
theorem reset_cycle_order_and_isolation :
    resetCallbackEvents = Event.emptyDb :: (seedPhaseEvents ++ stagePhaseEvents) ∧
    seedPhaseEvents.all isSeedEvent = true ∧
    stagePhaseEvents.all isStageEvent = true ∧
    resetCallbackEvents.all
      (fun e => !(e == Event.configLoad) && !(e == Event.guardCheck)
        && !(isServiceStartEvent e)) = true := by
  decide

/-- Claim C4, counterexample: the claim puts the web listener second
(before the realtime transport), but in the `before` hook the realtime
transport (`sockets.init`) starts strictly before the web listener
(`webserver.listen` is the last startup call). -/
theorem service_start_claimed_order_false :
    Event.socketsInit ∈ beforeEvents true ∧ Event.webListen ∈ beforeEvents true ∧
    (beforeEvents true).indexOf Event.socketsInit
      < (beforeEvents true).indexOf Event.webListen := by
  decide

/-- Claim C4, amended: after seeding completes, the `before` hook starts
the dependent services in the fixed order session store, realtime
transport, background job processors for notifications then users, and
finally the web listener; in the sequential trace each step precedes the
next. -/
theorem service_start_order :
    ∀ b : Bool,
      Event.initSessionStore ∈ beforeEvents b ∧
      Event.socketsInit ∈ beforeEvents b ∧
      Event.notifStartJobs ∈ beforeEvents b ∧
      Event.userStartJobs ∈ beforeEvents b ∧
      Event.webListen ∈ beforeEvents b ∧
      (beforeEvents b).indexOf Event.themeSet
        < (beforeEvents b).indexOf Event.initSessionStore ∧
      (beforeEvents b).indexOf Event.initSessionStore
        < (beforeEvents b).indexOf Event.socketsInit ∧
      (beforeEvents b).indexOf Event.socketsInit
        < (beforeEvents b).indexOf Event.notifStartJobs ∧
      (beforeEvents b).indexOf Event.notifStartJobs
        < (beforeEvents b).indexOf Event.userStartJobs ∧
      (beforeEvents b).indexOf Event.userStartJobs
        < (beforeEvents b).indexOf Event.webListen := by
  intro b
  cases b <;> decide

end NodebbTestBootstrap
